import Mathlib

/-!
Verification of the hippo repository (Django settings and builds URL routing)
against its natural-language specification.

The repository's source consists of `src/builds/urls.py` (the URL table of the
builds app) and `src/hippo/settings/production.py` (environment-driven
settings).  Those files are embedded below.  The build-pipeline components the
spec describes (lifecycle controller, executor, lease) have no code under
`src/`; where a claim is about them, the corresponding definitions are
modelled from the spec and marked as such.
-/

/-! ## UUID path converter

`src/builds/urls.py` uses Django's `<uuid:pk>` path converter.  Django's
`django.urls.converters.UUIDConverter` matches a path segment against the
regex `[0-9a-f]{8}-[0-9a-f]{4}-[0-9a-f]{4}-[0-9a-f]{4}-[0-9a-f]{12}`:
36 characters, hyphens at positions 8, 13, 18 and 23, lowercase hex digits
elsewhere.  We embed that regex as a per-position character-class template. -/

/-- A character of the class `[0-9a-f]` (lowercase hexadecimal digit),
exactly the class Django's UUID converter regex uses. -/
def isLowerHexDigit (c : Char) : Bool :=
  (Char.ofNat 48 ≤ c && c ≤ Char.ofNat 57) || (Char.ofNat 97 ≤ c && c ≤ Char.ofNat 102)

/-- A hexadecimal digit of either case, `[0-9a-fA-F]`. -/
def isAnyHexDigit (c : Char) : Bool :=
  isLowerHexDigit c || (Char.ofNat 65 ≤ c && c ≤ Char.ofNat 70)

/-- A string of character classes: position `i` of the subject must satisfy
predicate `i` of the template, and the lengths must agree (the converter
regex is anchored on both sides by URL resolution). -/
def matchesTemplate : List (Char → Bool) → List Char → Bool
  | [], [] => true
  | p :: ps, c :: cs => p c && matchesTemplate ps cs
  | _, _ => false

/-- The 8-4-4-4-12 hyphenated UUID template over a hex-digit class `p`. -/
def uuidTemplate (p : Char → Bool) : List (Char → Bool) :=
  List.replicate 8 p ++ [fun c => c == Char.ofNat 45] ++
  List.replicate 4 p ++ [fun c => c == Char.ofNat 45] ++
  List.replicate 4 p ++ [fun c => c == Char.ofNat 45] ++
  List.replicate 4 p ++ [fun c => c == Char.ofNat 45] ++
  List.replicate 12 p

/-- The set of path segments matched by Django's `<uuid:...>` converter, i.e.
by the regex `[0-9a-f]{8}-[0-9a-f]{4}-[0-9a-f]{4}-[0-9a-f]{4}-[0-9a-f]{12}`
(the pattern `<uuid:pk>` compiles to in `src/builds/urls.py`). -/
def uuidParamMatch (s : String) : Bool :=
  matchesTemplate (uuidTemplate isLowerHexDigit) s.data

/-- The spec's notion of a "UUID-shaped 128-bit value" in textual form: the
standard hyphenated 8-4-4-4-12 UUID spelling with hexadecimal digits of
either case (as accepted, e.g., by RFC 4122 parsers and Python's
`uuid.UUID`).  Stated from the spec's words, for comparison with the
converter actually used by the routing code. -/
def uuidShaped (s : String) : Bool :=
  matchesTemplate (uuidTemplate isAnyHexDigit) s.data

/-! ## The builds URL table (`src/builds/urls.py`)

```python
app_name = 'builds'
urlpatterns = [
    path('new/', views.CreateView.as_view(), name='new'),
    path('<uuid:pk>/', views.DetailView.as_view(), name='detail'),
    path('<uuid:pk>/edit/', views.UpdateView.as_view(), name='update'),
    path('<uuid:pk>/delete/', views.DeleteView.as_view(), name='delete'),
]
```

A Django path pattern is a sequence of segments, each a literal or a
converter; URL resolution splits the request path on `/` and the first
pattern in the table whose segments all match wins. -/

/-- One segment of a Django path pattern: a literal, or the uuid converter. -/
inductive PathPart where
  | lit (s : String)
  | uuidParam
  deriving DecidableEq

/-- The four class-based views the builds URL table dispatches to. -/
inductive BuildViewName where
  | create
  | detail
  | update
  | delete
  deriving DecidableEq

/-- One `path(...)` entry: the compiled pattern, the view it dispatches to,
and the route name. -/
structure UrlEntry where
  parts : List PathPart
  view : BuildViewName
  name : String
  deriving DecidableEq

/-- `urlpatterns` of `src/builds/urls.py`, with each route string split into
its segments (`'new/'` is the single literal segment `new`; `'<uuid:pk>/edit/'`
is a uuid segment followed by the literal `edit`, and so on). -/
def urlpatterns : List UrlEntry :=
  [ ⟨[.lit "new"], .create, "new"⟩,
    ⟨[.uuidParam], .detail, "detail"⟩,
    ⟨[.uuidParam, .lit "edit"], .update, "update"⟩,
    ⟨[.uuidParam, .lit "delete"], .delete, "delete"⟩ ]

/-- Whether one pattern segment matches one path segment. -/
def partMatches : PathPart → String → Bool
  | .lit l, seg => seg = l
  | .uuidParam, seg => uuidParamMatch seg

/-- Whether a whole pattern matches a whole path (given as its list of
segments); all segments must match and the lengths must agree. -/
def patternMatches : List PathPart → List String → Bool
  | [], [] => true
  | p :: ps, s :: ss => partMatches p s && patternMatches ps ss
  | _, _ => false

/-- Django URL resolution over a table: the first entry whose pattern
matches the path wins; if none matches, resolution fails. -/
def resolveList : List UrlEntry → List String → Option BuildViewName
  | [], _ => none
  | u :: us, segs =>
    if patternMatches u.parts segs then some u.view else resolveList us segs

/-- Resolution of a request path (as its list of `/`-separated segments)
against the builds URL table. -/
def resolve (segs : List String) : Option BuildViewName :=
  resolveList urlpatterns segs

/-! ## Production settings (`src/hippo/settings/production.py`)

Settings are functions of the process environment.  `os.environ.get(k)`
returns `None` when `k` is unset; `os.environ.get(k, d)` returns `d`. -/

/-- A process environment: maps a variable name to its value, if set. -/
def Env : Type := String → Option String

/-- `os.environ.get(key, dflt)` for a string default. -/
def osEnvironGet (env : Env) (key dflt : String) : String :=
  (env key).getD dflt

/-- A Python scalar appearing among the settings values: the database port
default is the integer `5432`, while an environment value is a string. -/
inductive PyScalar where
  | str (s : String)
  | int (n : Int)
  deriving DecidableEq

/-- `SECRET_KEY = os.environ.get('PEGASUS_SECRET_KEY')` — no default, so the
setting is `None` exactly when the variable is unset. -/
def SECRET_KEY (env : Env) : Option String :=
  env "PEGASUS_SECRET_KEY"

/-- `DEBUG = True` — a literal constant, reading nothing from the
environment. -/
def DEBUG (_ : Env) : Bool :=
  true

/-- Python's `str.split(sep)` for a one-character separator `sep`, on the
character list of the string: splitting the empty string yields `[[]]` (one
empty field), and every separator occurrence starts a new field. -/
def pySplit (sep : Char) : List Char → List (List Char)
  | [] => [[]]
  | c :: cs =>
    let r := pySplit sep cs
    if c = sep then [] :: r else (c :: r.headD []) :: r.tail

/-- `s.split(',')` as a list of strings. -/
def pySplitComma (s : String) : List String :=
  (pySplit (Char.ofNat 44) s.data).map (fun l => String.mk l)

/-- `ALLOWED_HOSTS = os.environ.get('PEGASUS_ALLOWED_HOSTS',
'.testhost,127.0.0.1,[::1]').split(',')`. -/
def ALLOWED_HOSTS (env : Env) : List String :=
  pySplitComma (osEnvironGet env "PEGASUS_ALLOWED_HOSTS" ".testhost,127.0.0.1,[::1]")

/-- `DATABASES['default']['NAME']`. -/
def DATABASES_NAME (env : Env) : String :=
  osEnvironGet env "PEGASUS_DATABASE_NAME" "hippo"

/-- `DATABASES['default']['USER']`. -/
def DATABASES_USER (env : Env) : String :=
  osEnvironGet env "PEGASUS_DATABASE_USER" "postgres"

/-- `DATABASES['default']['PASSWORD']`. -/
def DATABASES_PASSWORD (env : Env) : String :=
  osEnvironGet env "PEGASUS_DATABASE_PASSWORD" ""

/-- `DATABASES['default']['HOST']`. -/
def DATABASES_HOST (env : Env) : String :=
  osEnvironGet env "PEGASUS_DATABASE_SERVICE_HOST" ""

/-- `DATABASES['default']['PORT'] =
os.environ.get('PEGASUS_DATABASE_SERVICE_PORT', 5432)` — the default is the
Python integer `5432`, an environment value is a string. -/
def DATABASES_PORT (env : Env) : PyScalar :=
  match env "PEGASUS_DATABASE_SERVICE_PORT" with
  | some v => .str v
  | none => .int 5432

/-- `REGISTRATION_MODE = os.environ.get('PEGASUS_REGISTRATION_MODE', 'enabled')`. -/
def REGISTRATION_MODE (env : Env) : String :=
  osEnvironGet env "PEGASUS_REGISTRATION_MODE" "enabled"

/-- `DEFAULT_DOMAIN = os.environ.get('PEGASUS_DEFAULT_DOMAIN', 'hippo.test')`. -/
def DEFAULT_DOMAIN (env : Env) : String :=
  osEnvironGet env "PEGASUS_DEFAULT_DOMAIN" "hippo.test"

/-- The `MIDDLEWARE` list of `src/hippo/settings/production.py`. -/
def MIDDLEWARE : List String :=
  [ "django.middleware.security.SecurityMiddleware",
    "django.contrib.sessions.middleware.SessionMiddleware",
    "django.middleware.common.CommonMiddleware",
    "django.middleware.csrf.CsrfViewMiddleware",
    "django.contrib.auth.middleware.AuthenticationMiddleware",
    "django.contrib.messages.middleware.MessageMiddleware",
    "django.middleware.clickjacking.XFrameOptionsMiddleware" ]

/-- The `AUTHENTICATION_BACKENDS` tuple of `src/hippo/settings/production.py`. -/
def AUTHENTICATION_BACKENDS : List String :=
  [ "django.contrib.auth.backends.ModelBackend",
    "guardian.backends.ObjectPermissionBackend" ]

/-! ## Build lifecycle state machine (modelled from the spec)

No lifecycle-controller code is under `src/`; the state machine is §4.2 of
the spec. -/

/-- Modelled from the spec: the Build status enumeration of §4 (the
lifecycle-controller code is not under `src/`). -/
inductive BuildStatus where
  | queued
  | running
  | succeeded
  | failed
  | cancelled
  deriving DecidableEq, Fintype

/-- Modelled from the spec: the transition relation of §4.2,
`QUEUED -> RUNNING -> {SUCCEEDED, FAILED}` plus `QUEUED -> CANCELLED` and
`RUNNING -> CANCELLED`. -/
def canTransition : BuildStatus → BuildStatus → Bool
  | .queued, .running => true
  | .running, .succeeded => true
  | .running, .failed => true
  | .queued, .cancelled => true
  | .running, .cancelled => true
  | _, _ => false

/-- Modelled from the spec: SUCCEEDED, FAILED and CANCELLED are the terminal
states. -/
def isTerminal : BuildStatus → Bool
  | .succeeded => true
  | .failed => true
  | .cancelled => true
  | _ => false

/-- A sequence of statuses observed over time: consecutive observations
either show the same status again or witness one state-machine transition. -/
def observedChain : List BuildStatus → Bool
  | [] => true
  | [_] => true
  | a :: b :: rest => (a == b || canTransition a b) && observedChain (b :: rest)

/-! ## Lease mutual exclusion (modelled from the spec)

No executor or lease code is under `src/`; §5 and §9 of the spec describe an
arena of Build records with an atomic compare-and-swap lease field, executors
becoming active on a Build only after winning the CAS.  Build and executor
identifiers are opaque; we use naturals. -/

/-- Modelled from the spec: the shared state of the lease mechanism — the
atomic lease field of each Build record, and which Build each executor
instance is actively processing, if any. -/
structure LeaseState where
  lease : Nat → Option Nat
  active : Nat → Option Nat

/-- Pointwise update of a finite map (the effect of one atomic write). -/
def setAt (f : Nat → Option Nat) (k : Nat) (v : Option Nat) : Nat → Option Nat :=
  fun x => if x = k then v else f x

/-- Modelled from the spec: one atomic step of the lease protocol.  An idle
executor `e` acquires Build `b` only when the compare-and-swap on the lease
field succeeds (the field is free), becoming active on `b`; an active
executor finishes, releasing the lease.  A failed CAS changes nothing and so
needs no rule. -/
inductive LeaseStep : LeaseState → LeaseState → Prop
  | acquire (s : LeaseState) (e b : Nat)
      (hfree : s.lease b = none) (hidle : s.active e = none) :
      LeaseStep s ⟨setAt s.lease b (some e), setAt s.active e (some b)⟩
  | finish (s : LeaseState) (e b : Nat)
      (hrun : s.active e = some b) :
      LeaseStep s ⟨setAt s.lease b none, setAt s.active e none⟩

/-- The initial lease state: every lease free, every executor idle. -/
def leaseInit : LeaseState :=
  ⟨fun _ => none, fun _ => none⟩

/-- States reachable from the initial state by lease-protocol steps. -/
inductive LeaseReachable : LeaseState → Prop
  | init : LeaseReachable leaseInit
  | step (s t : LeaseState) : LeaseReachable s → LeaseStep s t → LeaseReachable t

/-! ## Atomic success visibility (modelled from the spec)

No executor code is under `src/`; §4.3 of the spec: on success the artifact
reference is stored atomically with the SUCCEEDED transition. -/

/-- Modelled from the spec: the visible fields of one Build record relevant
to success atomicity — its status and its nullable artifact reference. -/
structure BuildRecord where
  status : BuildStatus
  artifact : Option Nat

/-- Modelled from the spec: the atomic updates applied to one Build record
over its life.  Creation is QUEUED with no artifact; the SUCCEEDED
transition writes the artifact reference in the same atomic step; no other
step touches the artifact field. -/
inductive RecordStep : BuildRecord → BuildRecord → Prop
  | start (r : BuildRecord) (h : r.status = .queued) :
      RecordStep r ⟨.running, r.artifact⟩
  | succeed (r : BuildRecord) (ref : Nat) (h : r.status = .running) :
      RecordStep r ⟨.succeeded, some ref⟩
  | fail (r : BuildRecord) (h : r.status = .running) :
      RecordStep r ⟨.failed, r.artifact⟩
  | cancelQueued (r : BuildRecord) (h : r.status = .queued) :
      RecordStep r ⟨.cancelled, r.artifact⟩
  | cancelRunning (r : BuildRecord) (h : r.status = .running) :
      RecordStep r ⟨.cancelled, r.artifact⟩

/-- A freshly created Build record: QUEUED, no artifact. -/
def recordInit : BuildRecord :=
  ⟨.queued, none⟩

/-- Build-record states reachable from creation. -/
inductive RecordReachable : BuildRecord → Prop
  | init : RecordReachable recordInit
  | step (r t : BuildRecord) : RecordReachable r → RecordStep r t → RecordReachable t

/-! ## Access control on the build routes

The builds views module is not under `src/`; §6 of the spec scopes every
control-plane route to an authenticated caller with access to the owning
application.  The configuration that supports this is in
`src/hippo/settings/production.py`. -/

/-- What a view demands of its caller. -/
structure ViewPolicy where
  requiresAuthenticatedCaller : Bool
  requiresAccessToOwningApp : Bool
  deriving DecidableEq

/-- Modelled from the spec: `builds/views.py` is not under `src/`; per §6
every control-plane build view is scoped to an authenticated caller with
access to the owning application. -/
def viewPolicy : BuildViewName → ViewPolicy :=
  fun _ => ⟨true, true⟩

/-! ## Helper lemmas on template and pattern matching -/

/-- A template only matches subjects of its own length. -/
theorem matchesTemplate_length : ∀ (ps : List (Char → Bool)) (cs : List Char),
    matchesTemplate ps cs = true → ps.length = cs.length
  | [], [], _ => rfl
  | [], _ :: _, h => by simp [matchesTemplate] at h
  | _ :: _, [], h => by simp [matchesTemplate] at h
  | p :: ps, c :: cs, h => by
    simp only [matchesTemplate, Bool.and_eq_true] at h
    simp [matchesTemplate_length ps cs h.2]

/-- The uuid template has 36 character classes. -/
theorem uuidTemplate_length (p : Char → Bool) : (uuidTemplate p).length = 36 := by
  simp [uuidTemplate]

/-- A segment accepted by the uuid converter has 36 characters. -/
theorem uuidParamMatch_length {s : String} (h : uuidParamMatch s = true) :
    s.data.length = 36 := by
  have h36 := matchesTemplate_length _ _ h
  rw [uuidTemplate_length] at h36
  exact h36.symm

/-- A segment accepted by the uuid converter is not the literal `new`. -/
theorem uuidParamMatch_ne_new {s : String} (h : uuidParamMatch s = true) : s ≠ "new" := by
  intro heq
  subst heq
  exact absurd (uuidParamMatch_length h) (by decide)

/-- Pointwise weakening of a template, matched class by matched class. -/
theorem matchesTemplate_imp {ps qs : List (Char → Bool)}
    (h : List.Forall₂ (fun p q => ∀ c, p c = true → q c = true) ps qs) :
    ∀ cs, matchesTemplate ps cs = true → matchesTemplate qs cs = true := by
  induction h with
  | nil =>
    intro cs hm
    cases cs with
    | nil => exact hm
    | cons c cs => simp [matchesTemplate] at hm
  | cons hpq _ ih =>
    intro cs hm
    cases cs with
    | nil => simp [matchesTemplate] at hm
    | cons c cs =>
      simp only [matchesTemplate, Bool.and_eq_true] at hm ⊢
      exact ⟨hpq c hm.1, ih cs hm.2⟩

/-- Replicated classes are pointwise related when the classes are. -/
theorem forallTwoReplicate {R : (Char → Bool) → (Char → Bool) → Prop}
    {p q : Char → Bool} (h : R p q) :
    ∀ n, List.Forall₂ R (List.replicate n p) (List.replicate n q)
  | 0 => .nil
  | n + 1 => .cons h (forallTwoReplicate h n)

/-- Concatenation preserves pointwise relatedness of templates. -/
theorem forallTwoAppend {R : (Char → Bool) → (Char → Bool) → Prop} :
    ∀ {l1 l2 u1 u2 : List (Char → Bool)}, List.Forall₂ R l1 l2 →
      List.Forall₂ R u1 u2 → List.Forall₂ R (l1 ++ u1) (l2 ++ u2) := by
  intro l1 l2 u1 u2 h hu
  induction h with
  | nil => exact hu
  | cons hpq _ ih => exact .cons hpq ih

/-- Every lowercase hexadecimal digit is a hexadecimal digit. -/
theorem isLowerHexDigit_imp_any {c : Char} (h : isLowerHexDigit c = true) :
    isAnyHexDigit c = true := by
  simp [isAnyHexDigit, h]

/-- The uuid templates over the two digit classes are pointwise related. -/
theorem uuidTemplate_lower_imp_any :
    List.Forall₂ (fun p q => ∀ c, p c = true → q c = true)
      (uuidTemplate isLowerHexDigit) (uuidTemplate isAnyHexDigit) := by
  unfold uuidTemplate
  have hdash : ∀ c : Char, (c == Char.ofNat 45) = true → (c == Char.ofNat 45) = true :=
    fun _ h => h
  have hlow : ∀ c : Char, isLowerHexDigit c = true → isAnyHexDigit c = true :=
    fun _ h => isLowerHexDigit_imp_any h
  refine forallTwoAppend ?_ (forallTwoReplicate hlow 12)
  refine forallTwoAppend ?_ (.cons hdash .nil)
  refine forallTwoAppend ?_ (forallTwoReplicate hlow 4)
  refine forallTwoAppend ?_ (.cons hdash .nil)
  refine forallTwoAppend ?_ (forallTwoReplicate hlow 4)
  refine forallTwoAppend ?_ (.cons hdash .nil)
  refine forallTwoAppend ?_ (forallTwoReplicate hlow 4)
  exact forallTwoAppend (forallTwoReplicate hlow 8) (.cons hdash .nil)

/-- Every segment the uuid converter accepts is UUID-shaped. -/
theorem uuidParamMatch_imp_uuidShaped {s : String} (h : uuidParamMatch s = true) :
    uuidShaped s = true :=
  matchesTemplate_imp uuidTemplate_lower_imp_any s.data h

/-- A single-literal pattern matches exactly the one-segment path with that
literal. -/
theorem patternMatches_lit {l : String} {segs : List String} :
    patternMatches [.lit l] segs = true ↔ segs = [l] := by
  cases segs with
  | nil => simp [patternMatches]
  | cons s ss =>
    cases ss with
    | nil => simp [patternMatches, partMatches]
    | cons t ts => simp [patternMatches, partMatches]

/-- The bare uuid pattern matches exactly the one-segment paths whose
segment the converter accepts. -/
theorem patternMatches_uuid {segs : List String} :
    patternMatches [.uuidParam] segs = true ↔
      ∃ s, segs = [s] ∧ uuidParamMatch s = true := by
  cases segs with
  | nil => simp [patternMatches]
  | cons s ss =>
    cases ss with
    | nil => simp [patternMatches, partMatches]
    | cons t ts => simp [patternMatches, partMatches]

/-- A uuid-then-literal pattern matches exactly the two-segment paths whose
first segment the converter accepts and whose second is that literal. -/
theorem patternMatches_uuid_lit {l : String} {segs : List String} :
    patternMatches [.uuidParam, .lit l] segs = true ↔
      ∃ s, segs = [s, l] ∧ uuidParamMatch s = true := by
  cases segs with
  | nil => simp [patternMatches]
  | cons s ss =>
    cases ss with
    | nil => simp [patternMatches, partMatches]
    | cons t ts =>
      cases ts with
      | nil =>
        constructor
        · intro h
          simp only [patternMatches, partMatches, Bool.and_true, Bool.and_eq_true,
            decide_eq_true_eq] at h
          obtain ⟨hu, ht⟩ := h
          subst ht
          exact ⟨s, rfl, hu⟩
        · rintro ⟨s', hs, hu⟩
          simp only [List.cons.injEq, and_true] at hs
          obtain ⟨rfl, rfl⟩ := hs
          simp [patternMatches, partMatches, hu]
      | cons u us => simp [patternMatches, partMatches]

/-- Resolution against the builds table, unfolded to its four candidate
patterns in table order. -/
theorem resolve_eq (segs : List String) :
    resolve segs =
      if patternMatches [.lit "new"] segs then some .create
      else if patternMatches [.uuidParam] segs then some .detail
      else if patternMatches [.uuidParam, .lit "edit"] segs then some .update
      else if patternMatches [.uuidParam, .lit "delete"] segs then some .delete
      else none := by
  simp only [resolve, urlpatterns, resolveList]

/-- Claim C1: the builds URL table consists of exactly four routes — a
create route at `new/`, a detail route at `{id}/`, an edit route at
`{id}/edit/` and a delete route at `{id}/delete/`, each dispatching to the
corresponding create/detail/update/delete view — and no other path resolves
against the table. -/
theorem builds_url_table_exact (segs : List String) (v : BuildViewName) :
    urlpatterns.length = 4 ∧
    urlpatterns.map UrlEntry.name = ["new", "detail", "update", "delete"] ∧
    resolve ["new"] = some .create ∧
    (∀ s, uuidParamMatch s = true →
      resolve [s] = some .detail ∧
      resolve [s, "edit"] = some .update ∧
      resolve [s, "delete"] = some .delete) ∧
    (resolve segs = some v →
      (segs = ["new"] ∧ v = .create) ∨
      (∃ s, uuidParamMatch s = true ∧
        ((segs = [s] ∧ v = .detail) ∨ (segs = [s, "edit"] ∧ v = .update) ∨
         (segs = [s, "delete"] ∧ v = .delete)))) := by
  refine ⟨rfl, rfl, by decide, ?_, ?_⟩
  · intro s hs
    have hnew : s ≠ "new" := uuidParamMatch_ne_new hs
    refine ⟨?_, ?_, ?_⟩ <;>
      simp [resolve_eq, patternMatches_lit, patternMatches_uuid,
        patternMatches_uuid_lit, hs, hnew]
  · intro h
    rw [resolve_eq] at h
    split_ifs at h with h1 h2 h3 h4
    · exact Or.inl ⟨patternMatches_lit.mp h1, (Option.some.inj h).symm⟩
    · obtain ⟨s, rfl, hs⟩ := patternMatches_uuid.mp h2
      exact Or.inr ⟨s, hs, Or.inl ⟨rfl, (Option.some.inj h).symm⟩⟩
    · obtain ⟨s, rfl, hs⟩ := patternMatches_uuid_lit.mp h3
      exact Or.inr ⟨s, hs, Or.inr (Or.inl ⟨rfl, (Option.some.inj h).symm⟩)⟩
    · obtain ⟨s, rfl, hs⟩ := patternMatches_uuid_lit.mp h4
      exact Or.inr ⟨s, hs, Or.inr (Or.inr ⟨rfl, (Option.some.inj h).symm⟩)⟩

/-- Concrete instantiation of claim C1: the create route, a detail fetch and
an edit on a concrete identifier, and table-order resolution of `new/`. -/
theorem builds_url_table_exact_witness :
    resolve ["new"] = some BuildViewName.create ∧
    resolve ["01234567-89ab-cdef-0123-456789abcdef", "edit"] =
      some BuildViewName.update ∧
    ((["new"] = ["new"] ∧ BuildViewName.create = BuildViewName.create) ∨
      (∃ s, uuidParamMatch s = true ∧
        ((["new"] = [s] ∧ BuildViewName.create = BuildViewName.detail) ∨
         (["new"] = [s, "edit"] ∧ BuildViewName.create = BuildViewName.update) ∨
         (["new"] = [s, "delete"] ∧ BuildViewName.create = BuildViewName.delete)))) := by
  refine ⟨(builds_url_table_exact ["new"] BuildViewName.create).2.2.1, ?_, ?_⟩
  · exact ((builds_url_table_exact ["new"] BuildViewName.create).2.2.2.1
      "01234567-89ab-cdef-0123-456789abcdef" (by decide)).2.1
  · exact (builds_url_table_exact ["new"] BuildViewName.create).2.2.2.2 (by decide)

/-- Claim C2 counterexample: the uppercase spelling
`0123ABCD-89AB-CDEF-0123-456789ABCDEF` is UUID-shaped (a standard textual
form of a 128-bit UUID, accepted e.g. by Python's `uuid.UUID`), yet neither
the detail nor the edit nor the delete route matches it, because Django's
uuid converter regex admits lowercase hex digits only. -/
theorem uuid_routes_uppercase_rejected :
    uuidShaped "0123ABCD-89AB-CDEF-0123-456789ABCDEF" = true ∧
    resolve ["0123ABCD-89AB-CDEF-0123-456789ABCDEF"] = none ∧
    resolve ["0123ABCD-89AB-CDEF-0123-456789ABCDEF", "edit"] = none ∧
    resolve ["0123ABCD-89AB-CDEF-0123-456789ABCDEF", "delete"] = none := by
  decide

/-- Claim C2 (amended): on the detail, edit and delete routes the
identifier segment is accepted exactly when it is the canonical lowercase
hyphenated UUID spelling (the uuid converter regex); every accepted segment
is UUID-shaped, but not every UUID-shaped segment is accepted. -/
theorem uuid_routes_accept_iff_lowercase (s : String) :
    (resolve [s] = some .detail ↔ uuidParamMatch s = true) ∧
    (resolve [s, "edit"] = some .update ↔ uuidParamMatch s = true) ∧
    (resolve [s, "delete"] = some .delete ↔ uuidParamMatch s = true) ∧
    (uuidParamMatch s = true → uuidShaped s = true) := by
  have hall : uuidParamMatch s = true →
      resolve [s] = some .detail ∧ resolve [s, "edit"] = some .update ∧
      resolve [s, "delete"] = some .delete := by
    intro hs
    have hnew : s ≠ "new" := uuidParamMatch_ne_new hs
    refine ⟨?_, ?_, ?_⟩ <;>
      simp [resolve_eq, patternMatches_lit, patternMatches_uuid,
        patternMatches_uuid_lit, hs, hnew]
  refine ⟨⟨?_, fun hs => (hall hs).1⟩, ⟨?_, fun hs => (hall hs).2.1⟩,
    ⟨?_, fun hs => (hall hs).2.2⟩, fun hs => uuidParamMatch_imp_uuidShaped hs⟩
  · intro h
    rw [resolve_eq] at h
    split_ifs at h with h1 h2 h3 h4
    · exact absurd (Option.some.inj h) (by decide)
    · obtain ⟨t, ht, hu⟩ := patternMatches_uuid.mp h2
      injection ht with hst hnil
      subst hst
      exact hu
    · exact absurd (Option.some.inj h) (by decide)
    · exact absurd (Option.some.inj h) (by decide)
  · intro h
    rw [resolve_eq] at h
    split_ifs at h with h1 h2 h3 h4
    · exact absurd (Option.some.inj h) (by decide)
    · exact absurd (Option.some.inj h) (by decide)
    · obtain ⟨t, ht, hu⟩ := patternMatches_uuid_lit.mp h3
      injection ht with hst hrest
      subst hst
      exact hu
    · exact absurd (Option.some.inj h) (by decide)
  · intro h
    rw [resolve_eq] at h
    split_ifs at h with h1 h2 h3 h4
    · exact absurd (Option.some.inj h) (by decide)
    · exact absurd (Option.some.inj h) (by decide)
    · exact absurd (Option.some.inj h) (by decide)
    · obtain ⟨t, ht, hu⟩ := patternMatches_uuid_lit.mp h4
      injection ht with hst hrest
      subst hst
      exact hu

/-- Concrete instantiation of claim C2 (amended) at a lowercase
identifier. -/
theorem uuid_routes_accept_iff_lowercase_witness :
    resolve ["deadbeef-0000-4000-8000-000000000001"] = some BuildViewName.detail ∧
    uuidShaped "deadbeef-0000-4000-8000-000000000001" = true := by
  constructor
  · exact (uuid_routes_accept_iff_lowercase
      "deadbeef-0000-4000-8000-000000000001").1.mpr (by decide)
  · exact (uuid_routes_accept_iff_lowercase
      "deadbeef-0000-4000-8000-000000000001").2.2.2 (by decide)

/-! ## Theorems about the production settings -/

/-- An `os.environ.get(key, dflt)` setting equals the variable's value when
it is set, and the default when it is unset. -/
theorem osEnvironGet_spec (env : Env) (key dflt : String) :
    (∀ v, env key = some v → osEnvironGet env key dflt = v) ∧
    (env key = none → osEnvironGet env key dflt = dflt) := by
  constructor
  · intro v hv
    simp [osEnvironGet, hv]
  · intro hn
    simp [osEnvironGet, hn]

/-- Claim C3: in every environment each persisted-configuration setting
equals its environment variable's value when that variable is set, and
otherwise its documented default — database name `hippo`, user `postgres`,
password and host empty, port the integer `5432`, registration mode
`enabled`, default domain `hippo.test`. -/
theorem settings_env_with_defaults (env : Env) :
    (∀ v, env "PEGASUS_DATABASE_NAME" = some v → DATABASES_NAME env = v) ∧
    (env "PEGASUS_DATABASE_NAME" = none → DATABASES_NAME env = "hippo") ∧
    (∀ v, env "PEGASUS_DATABASE_USER" = some v → DATABASES_USER env = v) ∧
    (env "PEGASUS_DATABASE_USER" = none → DATABASES_USER env = "postgres") ∧
    (∀ v, env "PEGASUS_DATABASE_PASSWORD" = some v → DATABASES_PASSWORD env = v) ∧
    (env "PEGASUS_DATABASE_PASSWORD" = none → DATABASES_PASSWORD env = "") ∧
    (∀ v, env "PEGASUS_DATABASE_SERVICE_HOST" = some v → DATABASES_HOST env = v) ∧
    (env "PEGASUS_DATABASE_SERVICE_HOST" = none → DATABASES_HOST env = "") ∧
    (∀ v, env "PEGASUS_DATABASE_SERVICE_PORT" = some v → DATABASES_PORT env = .str v) ∧
    (env "PEGASUS_DATABASE_SERVICE_PORT" = none → DATABASES_PORT env = .int 5432) ∧
    (∀ v, env "PEGASUS_REGISTRATION_MODE" = some v → REGISTRATION_MODE env = v) ∧
    (env "PEGASUS_REGISTRATION_MODE" = none → REGISTRATION_MODE env = "enabled") ∧
    (∀ v, env "PEGASUS_DEFAULT_DOMAIN" = some v → DEFAULT_DOMAIN env = v) ∧
    (env "PEGASUS_DEFAULT_DOMAIN" = none → DEFAULT_DOMAIN env = "hippo.test") := by
  refine ⟨(osEnvironGet_spec env _ _).1, (osEnvironGet_spec env _ _).2,
    (osEnvironGet_spec env _ _).1, (osEnvironGet_spec env _ _).2,
    (osEnvironGet_spec env _ _).1, (osEnvironGet_spec env _ _).2,
    (osEnvironGet_spec env _ _).1, (osEnvironGet_spec env _ _).2,
    ?_, ?_,
    (osEnvironGet_spec env _ _).1, (osEnvironGet_spec env _ _).2,
    (osEnvironGet_spec env _ _).1, (osEnvironGet_spec env _ _).2⟩
  · intro v hv
    simp [DATABASES_PORT, hv]
  · intro hn
    simp [DATABASES_PORT, hn]

/-- Concrete instantiation of claim C3: all defaults in the empty
environment, and one variable read back when set. -/
theorem settings_env_with_defaults_witness :
    DATABASES_NAME (fun _ => none) = "hippo" ∧
    DATABASES_USER (fun _ => none) = "postgres" ∧
    DATABASES_PASSWORD (fun _ => none) = "" ∧
    DATABASES_HOST (fun _ => none) = "" ∧
    DATABASES_PORT (fun _ => none) = .int 5432 ∧
    REGISTRATION_MODE (fun _ => none) = "enabled" ∧
    DEFAULT_DOMAIN (fun _ => none) = "hippo.test" ∧
    DATABASES_NAME (fun _ => some "proddb") = "proddb" := by
  have h0 := settings_env_with_defaults (fun _ => none)
  have h1 := settings_env_with_defaults (fun _ => some "proddb")
  exact ⟨h0.2.1 rfl, h0.2.2.2.1 rfl, h0.2.2.2.2.2.1 rfl, h0.2.2.2.2.2.2.2.1 rfl,
    h0.2.2.2.2.2.2.2.2.2.1 rfl, h0.2.2.2.2.2.2.2.2.2.2.2.1 rfl,
    h0.2.2.2.2.2.2.2.2.2.2.2.2.2 rfl, h1.1 "proddb" rfl⟩

/-- Claim C8: `DEBUG` is the constant `True` in every environment; it is
not sourced from any environment variable, so no configuration can make it
`False`. -/
theorem DEBUG_always_true (env : Env) : DEBUG env = true :=
  rfl

/-- Python's `split` never returns an empty list of fields. -/
theorem pySplit_ne_nil (sep : Char) (cs : List Char) : pySplit sep cs ≠ [] := by
  cases cs with
  | nil => simp [pySplit]
  | cons c cs =>
    simp only [pySplit]
    split <;> simp

/-- Claim C9: `ALLOWED_HOSTS` is always the comma-split of
`PEGASUS_ALLOWED_HOSTS` and therefore never the empty list: unset, it is
the three-element default; set to the empty string, it is `[""]`. -/
theorem ALLOWED_HOSTS_comma_split (env : Env) :
    ALLOWED_HOSTS env ≠ [] ∧
    (env "PEGASUS_ALLOWED_HOSTS" = none →
      ALLOWED_HOSTS env = [".testhost", "127.0.0.1", "[::1]"]) ∧
    (env "PEGASUS_ALLOWED_HOSTS" = some "" → ALLOWED_HOSTS env = [""]) ∧
    (∀ v, env "PEGASUS_ALLOWED_HOSTS" = some v →
      ALLOWED_HOSTS env = pySplitComma v) := by
  refine ⟨?_, ?_, ?_, ?_⟩
  · intro hnil
    unfold ALLOWED_HOSTS pySplitComma at hnil
    rw [List.map_eq_nil_iff] at hnil
    exact pySplit_ne_nil _ _ hnil
  · intro hn
    simp only [ALLOWED_HOSTS, osEnvironGet, hn, Option.getD_none]
    decide
  · intro hv
    simp only [ALLOWED_HOSTS, osEnvironGet, hv, Option.getD_some]
    decide
  · intro v hv
    simp only [ALLOWED_HOSTS, osEnvironGet, hv, Option.getD_some]

/-- Concrete instantiation of claim C9: the default hosts when the variable
is unset, and the one-element list holding the empty string when it is set
to the empty string. -/
theorem ALLOWED_HOSTS_comma_split_witness :
    ALLOWED_HOSTS (fun _ => none) = [".testhost", "127.0.0.1", "[::1]"] ∧
    ALLOWED_HOSTS (fun _ => some "") = [""] := by
  exact ⟨(ALLOWED_HOSTS_comma_split (fun _ => none)).2.1 rfl,
    (ALLOWED_HOSTS_comma_split (fun _ => some "")).2.2.1 rfl⟩

/-- Claim C10: `SECRET_KEY` is the raw value of `PEGASUS_SECRET_KEY` — the
variable's value when set, `None` when unset; it has no default. -/
theorem SECRET_KEY_no_default (env : Env) :
    SECRET_KEY env = env "PEGASUS_SECRET_KEY" ∧
    (env "PEGASUS_SECRET_KEY" = none → SECRET_KEY env = none) ∧
    (∀ v, env "PEGASUS_SECRET_KEY" = some v → SECRET_KEY env = some v) := by
  exact ⟨rfl, fun h => h, fun v h => h⟩

/-- Concrete instantiation of claim C10: unset gives `None`, set gives the
value. -/
theorem SECRET_KEY_no_default_witness :
    SECRET_KEY (fun _ => none) = none ∧
    SECRET_KEY (fun _ => some "k1") = some "k1" := by
  exact ⟨(SECRET_KEY_no_default (fun _ => none)).2.1 rfl,
    (SECRET_KEY_no_default (fun _ => some "k1")).2.2 "k1" rfl⟩
/-! ## Theorems about the modelled build pipeline -/

/-- A terminal status has no outgoing transition. -/
theorem isTerminal_no_transition :
    ∀ a b : BuildStatus, isTerminal a = true → canTransition a b = false := by
  decide

/-- Once a chain of observations reaches a terminal status, every later
observation shows that same status. -/
theorem observedChain_terminal_const :
    ∀ (l : List BuildStatus) (a : BuildStatus), observedChain (a :: l) = true →
      isTerminal a = true → a :: l = List.replicate (l.length + 1) a
  | [], a, _, _ => rfl
  | b :: l, a, hc, ht => by
    simp only [observedChain, Bool.and_eq_true, Bool.or_eq_true, beq_iff_eq] at hc
    have hb : a = b := by
      rcases hc.1 with h | h
      · exact h
      · rw [isTerminal_no_transition a b ht] at h
        exact absurd h (by simp)
    subst hb
    have ih := observedChain_terminal_const l a hc.2 ht
    show a :: a :: l = List.replicate ((a :: l).length + 1) a
    rw [List.length_cons, List.replicate_succ, ← ih]

/-- Claim C4: the status transitions are exactly
`QUEUED -> RUNNING -> SUCCEEDED / FAILED`, `QUEUED -> CANCELLED` and
`RUNNING -> CANCELLED`, with SUCCEEDED, FAILED and CANCELLED terminal; an
observed status sequence never regresses from a terminal state — once a
terminal status is observed, every later observation repeats it. -/
theorem build_status_machine (a : BuildStatus) (l : List BuildStatus)
    (hchain : observedChain (a :: l) = true) :
    (∀ s t, canTransition s t = true ↔
      ((s = .queued ∧ t = .running) ∨ (s = .running ∧ t = .succeeded) ∨
       (s = .running ∧ t = .failed) ∨ (s = .queued ∧ t = .cancelled) ∨
       (s = .running ∧ t = .cancelled))) ∧
    (isTerminal .succeeded = true ∧ isTerminal .failed = true ∧
      isTerminal .cancelled = true ∧ isTerminal .queued = false ∧
      isTerminal .running = false) ∧
    (isTerminal a = true → a :: l = List.replicate (l.length + 1) a) := by
  exact ⟨by decide, by decide, fun ht => observedChain_terminal_const l a hchain ht⟩

/-- Concrete instantiation of claim C4: a build observed QUEUED, RUNNING,
then SUCCEEDED stays SUCCEEDED in all later observations. -/
theorem build_status_machine_witness :
    BuildStatus.succeeded :: [BuildStatus.succeeded] =
      List.replicate 2 BuildStatus.succeeded := by
  exact (build_status_machine BuildStatus.succeeded [BuildStatus.succeeded]
    (by decide)).2.2 (by decide)

/-- Claim C5: in every reachable state of the lease protocol an executor is
active on a Build only while holding its lease, and hence at most one
executor instance is actively processing a given Build id at any instant,
even under concurrent lease-acquisition attempts. -/
theorem lease_mutual_exclusion (s : LeaseState) (hr : LeaseReachable s) :
    (∀ e b, s.active e = some b → s.lease b = some e) ∧
    (∀ e1 e2 b, s.active e1 = some b → s.active e2 = some b → e1 = e2) := by
  have hinv : ∀ t, LeaseReachable t → ∀ e b, t.active e = some b →
      t.lease b = some e := by
    intro t hrt
    induction hrt with
    | init => intro e b h; exact absurd h (by simp [leaseInit])
    | step u w _ hstep ih =>
      cases hstep with
      | acquire e b hfree hidle =>
        intro e' b' h
        simp only [setAt] at h ⊢
        by_cases he : e' = e
        · rw [if_pos he] at h
          obtain rfl : b = b' := Option.some.inj h
          rw [if_pos rfl, he]
        · rw [if_neg he] at h
          have hl := ih e' b' h
          by_cases hb : b' = b
          · rw [hb, hfree] at hl
            exact absurd hl (by simp)
          · rw [if_neg hb]
            exact hl
      | finish e b hrun =>
        intro e' b' h
        simp only [setAt] at h ⊢
        by_cases he : e' = e
        · rw [if_pos he] at h
          exact absurd h (by simp)
        · rw [if_neg he] at h
          have hl := ih e' b' h
          by_cases hb : b' = b
          · exfalso
            have heb := ih e b hrun
            rw [hb, heb] at hl
            exact he (Option.some.inj hl).symm
          · rw [if_neg hb]
            exact hl
  refine ⟨hinv s hr, ?_⟩
  intro e1 e2 b h1 h2
  have k1 := hinv s hr e1 b h1
  have k2 := hinv s hr e2 b h2
  rw [k1] at k2
  exact Option.some.inj k2

/-- Concrete instantiation of claim C5: after executor 1 wins the
compare-and-swap on Build 0, the lease field names executor 1. -/
theorem lease_mutual_exclusion_witness :
    (setAt leaseInit.lease 0 (some 1)) 0 = some 1 := by
  have hr : LeaseReachable ⟨setAt leaseInit.lease 0 (some 1),
      setAt leaseInit.active 1 (some 0)⟩ :=
    .step _ _ .init (.acquire leaseInit 1 0 rfl rfl)
  refine (lease_mutual_exclusion _ hr).1 1 0 ?_
  simp [setAt]

/-- Claim C6: in every reachable state of a Build record, the status is
SUCCEEDED exactly when the artifact reference is non-null — the SUCCEEDED
transition and the artifact store are one atomic step, and no other step
produces a partially-visible success state. -/
theorem success_artifact_atomic (r : BuildRecord) (hr : RecordReachable r) :
    r.status = .succeeded ↔ r.artifact ≠ none := by
  induction hr with
  | init =>
    constructor
    · intro h
      exact absurd h (by simp [recordInit])
    · intro h
      exact absurd rfl h
  | step r t _ hstep ih =>
    cases hstep with
    | start h =>
      have hart : r.artifact = none := by
        by_contra hne
        have hs := ih.mpr hne
        rw [h] at hs
        exact absurd hs (by decide)
      simp [hart]
    | succeed ref h =>
      simp
    | fail h =>
      have hart : r.artifact = none := by
        by_contra hne
        have hs := ih.mpr hne
        rw [h] at hs
        exact absurd hs (by decide)
      simp [hart]
    | cancelQueued h =>
      have hart : r.artifact = none := by
        by_contra hne
        have hs := ih.mpr hne
        rw [h] at hs
        exact absurd hs (by decide)
      simp [hart]
    | cancelRunning h =>
      have hart : r.artifact = none := by
        by_contra hne
        have hs := ih.mpr hne
        rw [h] at hs
        exact absurd hs (by decide)
      simp [hart]

/-- Concrete instantiation of claim C6: a record that reached SUCCEEDED
through start-then-succeed carries an artifact reference. -/
theorem success_artifact_atomic_witness :
    (⟨BuildStatus.succeeded, some 7⟩ : BuildRecord).artifact ≠ none := by
  have hr : RecordReachable ⟨BuildStatus.succeeded, some 7⟩ :=
    .step _ _ (.step _ _ .init (.start recordInit rfl))
      (.succeed ⟨BuildStatus.running, none⟩ 7 rfl)
  exact (success_artifact_atomic _ hr).mp rfl

/-- Claim C7: every route of the builds URL table dispatches to a view
scoped to an authenticated caller with access to the owning application,
and the shown configuration supports this: the authentication middleware is
in the middleware stack and the object-permission backend is among the
authentication backends. -/
theorem build_routes_auth_scoped :
    (urlpatterns.all fun u =>
      (viewPolicy u.view).requiresAuthenticatedCaller &&
      (viewPolicy u.view).requiresAccessToOwningApp) = true ∧
    "django.contrib.auth.middleware.AuthenticationMiddleware" ∈ MIDDLEWARE ∧
    "guardian.backends.ObjectPermissionBackend" ∈ AUTHENTICATION_BACKENDS := by
  refine ⟨by decide, ?_, ?_⟩
  · simp [MIDDLEWARE]
  · simp [AUTHENTICATION_BACKENDS]
